import Mathlib

/-!
Shallow embedding of the upstream RPC client (`pkg/qtum/client.go`) and the
method registry (`pkg/transformer/transformer.go`) of the qtum-janus adapter,
together with theorems settling the specification claims about them.

Conventions of the embedding:
* Go `error` interface values become the inductive `GoErr`; Go `==` on errors
  (and Go map keys of type `error`) becomes decidable equality on `GoErr`.
* Time durations are tracked in whole milliseconds as integers.  In
  `computeBackoff` every intermediate quantity is a whole number of
  milliseconds not exceeding 256 000, so the source's `float64` arithmetic and
  `time.Duration` truncations are exact and the integer model is faithful.
* `math/rand`'s `rand.Intn(500)` is modelled by a parameter `r : ℕ` with the
  hypothesis `r < 500`.
* Network I/O (`Client.Do`) is modelled by an oracle `doRes : ℕ → Except GoErr
  String` giving the outcome of the i-th upstream attempt; `json.Marshal` of
  the request params and `json.Unmarshal` of a raw result are oracles
  `jm : String → Option String` and `ju : String → Bool`.
* A Go `context.Context` is modelled by `GoCtx`: whether its `Done()` channel
  is ready during the i-th backoff sleep, and the value of `Err()`.
* Mutex-guarded code is modelled sequentially (explicit state passing).
-/

namespace Janus

/-- Go `error` interface values.  `wqd` is `ErrQtumWorkQueueDepth`; `named s`
is any other error, identified by its message.  Equality models Go `==` on
interface values (as used by `map[error]bool`). -/
inductive GoErr where
  | wqd
  | named (msg : String)
  deriving DecidableEq, Repr

/-- `err.Error()`.  The work-queue-depth message is the literal the upstream
emits (spec §8 scenario "Retry on congestion"). -/
def GoErr.message : GoErr → String
  | .wqd => "Work queue depth exceeded"
  | .named m => m

/-- `ErrQtumWorkQueueDepth` (referenced from `client.go`). -/
def ErrQtumWorkQueueDepth : GoErr := .wqd

/-- Does the list start with the given list?  Helper for `strContains`. -/
def seqStartsWith : List Char → List Char → Bool
  | _, [] => true
  | [], _ :: _ => false
  | a :: as, b :: bs => a = b && seqStartsWith as bs

/-- Is `needle` a contiguous run of `hay`? -/
def seqContains : List Char → List Char → Bool
  | [], needle => needle.isEmpty
  | h :: t, needle => seqStartsWith (h :: t) needle || seqContains t needle

/-- Go `strings.Contains`. -/
def strContains (hay needle : String) : Bool :=
  seqContains hay.toList needle.toList

/-- `var maximumRequestTime = 10000` (`client.go:33`), in milliseconds. -/
def maximumRequestTime : ℕ := 10000

/-- `var maximumBackoff = (2 * time.Second).Milliseconds()` (`client.go:34`). -/
def maximumBackoff : ℕ := 2000

/-- `computeBackoff` (`client.go:602-612`), result in milliseconds.
`r` is the value drawn by `rand.Intn(500)` (used only when `random`).
The float computation `math.Pow(2, i) * 0.25` seconds is `250 * 2^i`
milliseconds exactly for the clamped `i ≤ 10`, and the subsequent
`Duration` conversions and `math.Min` are exact on these whole-millisecond
quantities, so the integer model returns the same number of milliseconds. -/
def computeBackoff (i : ℕ) (random : Bool) (r : ℕ) : ℤ :=
  let iClamped : ℕ := min i 10
  let randomNumberMilliseconds : ℤ := if random then (r : ℤ) - 250 else 0
  let exponentialBaseMs : ℤ := 250 * 2 ^ iClamped
  min (exponentialBaseMs + randomNumberMilliseconds) (maximumBackoff : ℤ)

/-- The jitter drawn when `random = true`: `rand.Intn(500) - 250` ms. -/
def backoffJitter (r : ℕ) : ℤ := (r : ℤ) - 250

/-- C3: for every retry attempt index `i`, the backoff sleep duration computed
by `computeBackoff(i, true)` equals `min(2 s, 0.25 · 2^i s + jitter)` (in
milliseconds: `min(2000, 250 · 2^i + (r - 250))`), and the jitter lies in the
interval from -250 ms to +250 ms.  The internal clamp of `i` at 10 never
changes the value, because past `i = 3` both sides are pinned at 2000 ms. -/
theorem computeBackoff_matches_spec_formula (i : ℕ) (r : ℕ) (h : r < 500) :
    computeBackoff i true r = min (250 * 2 ^ i + backoffJitter r) (2000 : ℤ) ∧
    -250 ≤ backoffJitter r ∧ backoffJitter r ≤ 250 := by
  refine ⟨?_, ?_, ?_⟩
  · unfold computeBackoff backoffJitter maximumBackoff
    by_cases hle : i ≤ 10
    · simp [Nat.min_eq_left hle]
    · push_neg at hle
      have h10 : (250 : ℤ) * 2 ^ (10 : ℕ) = 256000 := by norm_num
      have hpow : (2 : ℤ) ^ (10 : ℕ) ≤ 2 ^ i := by
        exact pow_le_pow_right₀ (by norm_num) (le_of_lt hle)
      have hbig : (2000 : ℤ) ≤ 250 * 2 ^ i + ((r : ℤ) - 250) := by
        have : (250 : ℤ) * 2 ^ (10 : ℕ) ≤ 250 * 2 ^ i := by
          exact mul_le_mul_of_nonneg_left hpow (by norm_num)
        have hr0 : (0 : ℤ) ≤ (r : ℤ) := Int.natCast_nonneg r
        omega
      have hbig10 : (2000 : ℤ) ≤ 250 * 2 ^ (10 : ℕ) + ((r : ℤ) - 250) := by
        have hr0 : (0 : ℤ) ≤ (r : ℤ) := Int.natCast_nonneg r
        omega
      have hclamp : min i 10 = 10 := Nat.min_eq_right (le_of_lt hle)
      rw [hclamp]
      simp only [if_true, ite_true]
      omega
  · unfold backoffJitter
    have : (0 : ℤ) ≤ (r : ℤ) := Int.natCast_nonneg r
    omega
  · unfold backoffJitter
    have : (r : ℤ) < 500 := by exact_mod_cast h
    omega

/-- Witness for C3 at `i = 3`, `r = 0`: the hypothesis `0 < 500` holds and the
backoff is `min(2000, 2000 - 250) = 1750` ms with jitter `-250`. -/
theorem computeBackoff_matches_spec_formula_witness :
    (0 : ℕ) < 500 ∧
      (computeBackoff 3 true 0 = min (250 * 2 ^ 3 + backoffJitter 0) (2000 : ℤ) ∧
        -250 ≤ backoffJitter 0 ∧ backoffJitter 0 ≤ 250) :=
  ⟨by decide, computeBackoff_matches_spec_formula 3 0 (by decide)⟩

/-- A Go `context.Context`, as the retry loop observes it: `firesDuring i`
says whether the context's `Done()` channel is ready before the backoff timer
during the sleep that follows attempt `i`; `errNow` is the value `Err()`
returns when read (`none` models a nil error). -/
structure GoCtx where
  firesDuring : ℕ → Bool
  errNow : Option GoErr

/-- Modelled from the spec: the client response cache (`clientCache`, defined
in a file not among the sources; only its call sites in `client.go` are).
Spec §3 "Cache Entry" and §4.b "Caching": entries are keyed by
`(method, canonical-JSON-of-params)`, hold the raw result bytes and an expiry
instant, and a fixed whitelist of methods is cachable; entries live until
their TTL expires. -/
structure ClientCache where
  whitelist : List String
  ttl : ℕ
  entries : List ((String × String) × (String × ℕ))
  deriving DecidableEq, Repr

/-- Modelled from the spec: whether a method is on the fixed cachable
whitelist (`c.cache.isCachable(method)` in `client.go:155,229`). -/
def ClientCache.isCachable (c : ClientCache) (method : String) : Bool :=
  c.whitelist.contains method

/-- Modelled from the spec: `c.cache.getResponse(method, params)`
(`client.go:158`).  Returns the stored raw result bytes when an entry for the
key exists and has not yet expired at time `now`; otherwise a miss. -/
def ClientCache.getResponse (c : ClientCache) (now : ℕ) (method paramsJSON : String) :
    Option String :=
  match c.entries.find? (fun e => e.1 = (method, paramsJSON)) with
  | some (_, (raw, expiry)) => if now < expiry then some raw else none
  | none => none

/-- Modelled from the spec: `c.cache.storeResponse(method, params, raw)`
(`client.go:230`).  Stores the raw result bytes under the key with expiry
`now + ttl`; the new entry shadows any older one for the same key. -/
def ClientCache.storeResponse (c : ClientCache) (now : ℕ) (method paramsJSON raw : String) :
    ClientCache :=
  { c with entries := ((method, paramsJSON), (raw, now + c.ttl)) :: c.entries }

/-- A Go `interface{}` flag value, as stored by `Client.SetFlag`; `Client.
GetFlagBool` type-asserts `bool` (`client.go:390-400`). -/
inductive GoVal where
  | b (x : Bool)
  | s (x : String)
  | i (x : Int)
  deriving DecidableEq, Repr

/-- The state of `qtum.Client` that the verified operations touch
(`client.go:38-66`): the `big.Int` request-ID counter (started at 0 with step
1 by `NewClient`), the optional error handler, the stored context `c.ctx`,
the response cache and the flag store.  The flag store is an association
list read through its first matching key, which models a Go map under
insert-overwrite. -/
structure MClient where
  id : ℕ
  errorHandler : Option (GoErr → Option GoErr)
  clientCtx : Option GoCtx
  cache : ClientCache
  flags : List (String × GoVal)

/-- `Client.SetErrorHandler` (`client.go:129-131`). -/
def SetErrorHandler (c : MClient) (h : GoErr → Option GoErr) : MClient :=
  { c with errorHandler := some h }

/-- A `JSONRPCRequest` as built by `NewRPCRequest`; the `id` field carries the
decimal string of the counter (the source wraps it in quotes to make a JSON
string). -/
structure JSONRPCRequest where
  id : String
  method : String
  paramsJSON : String
  deriving DecidableEq, Repr

/-- `Client.NewRPCRequest` (`client.go:311-327`): marshal the params (oracle
`jm`); on failure return the error with the ID counter untouched; on success
increment the counter under the ID mutex and attach the new value as the
request ID.  Returns the updated client together with the outcome. -/
def NewRPCRequest (jm : String → Option String) (c : MClient) (method params : String) :
    MClient × Except GoErr JSONRPCRequest :=
  match jm params with
  | none => (c, .error (.named "json: unsupported type"))
  | some paramsJSON =>
      let c' := { c with id := c.id + 1 }
      (c', .ok { id := toString c'.id, method := method, paramsJSON := paramsJSON })

/-- Outcome of the retry loop of `RequestWithContext` (`client.go:183-221`),
carrying the number of upstream attempts performed:
* `succ`: the loop broke out with a successful `Do` result;
* `fail`: `return err` (the non-retry branch);
* `cancelled`: `return errors.WithMessage(ctx.Err(), "context cancelled")`,
  with the value `ctx.Err()` had (`none` = nil, in which case `WithMessage`
  returns nil);
* `panicNilHandler`: the call `c.errorHandler(ctx, err)` on a nil function
  value, which panics;
* `exhausted`: the `for` loop ran out of iterations without breaking or
  returning (leaving `resp` nil; unreachable while `max ≥ 1`). -/
inductive LoopRes where
  | succ (raw : String) (attempts : ℕ)
  | fail (e : GoErr) (attempts : ℕ)
  | cancelled (e : Option GoErr) (attempts : ℕ)
  | panicNilHandler (attempts : ℕ)
  | exhausted (attempts : ℕ)
  deriving DecidableEq, Repr

/-- Attempt count carried by a `LoopRes`. -/
def LoopRes.attempts : LoopRes → ℕ
  | .succ _ n => n
  | .fail _ n => n
  | .cancelled _ n => n
  | .panicNilHandler n => n
  | .exhausted n => n

/-- The retry loop of `RequestWithContext` (`client.go:183-221`).
`errorHandler` is `c.errorHandler`; `clientDone` is the `Done()` signal of
`c.ctx` (`none` when `c.ctx` is nil, in which case the source selects on
`context.Background().Done()`, which never fires); `argErr` is the value
`ctx.Err()` would return in the cancellation branch; `doAttempt i` is the
outcome of the i-th `c.Do(ctx, req)`.  `fuel` counts the remaining
iterations; the loop is entered with `fuel = max` and `i = 0`, so `fuel > 0`
iff `i < max`.  The body preserves the source exactly, including the pair of
keys used around `handledErrors`: the membership test uses `errorHandlerErr`
(the handler's return value) while the recorded key is `err` (the upstream
error) — `client.go:190-191`. -/
def runLoop (errorHandler : Option (GoErr → Option GoErr)) (clientDone : Option (ℕ → Bool))
    (argErr : Option GoErr) (doAttempt : ℕ → Except GoErr String) (max : ℕ) :
    ℕ → ℕ → List GoErr → LoopRes
  | 0, i, _ => .exhausted i
  | fuel + 1, i, handledErrors =>
    match doAttempt i with
    | .ok raw => .succ raw (i + 1)
    | .error err =>
      match errorHandler with
      | none => .panicNilHandler (i + 1)
      | some handler =>
        let errorHandlerErr := handler err
        let retry : Bool :=
          match errorHandlerErr with
          | some e => decide (i ≠ max - 1) && !(handledErrors.contains e)
          | none => false
        let handledErrors' := if retry then err :: handledErrors else handledErrors
        if (retry || strContains err.message ErrQtumWorkQueueDepth.message) &&
            decide (i ≠ max - 1) then
          match clientDone with
          | some fires =>
            if fires i then .cancelled argErr (i + 1)
            else runLoop errorHandler clientDone argErr doAttempt max fuel (i + 1) handledErrors'
          | none => runLoop errorHandler clientDone argErr doAttempt max fuel (i + 1) handledErrors'
        else .fail err (i + 1)

/-- `max := int(math.Floor(math.Max(float64(maximumRequestTime/
int(maximumBackoff)), 1)))` (`client.go:182`); the Go integer division
`10000 / 2000 = 5` is exact in `float64`, so floor is the identity. -/
def maxAttempts : ℕ := Nat.max (maximumRequestTime / maximumBackoff) 1

/-- The value `RequestWithContext` returns, refined enough to tell the paths
apart:
* `cachedOk raw`: returned nil after unmarshalling the cached bytes `raw`;
* `ok raw`: returned nil after unmarshalling the upstream result `raw`;
* `err e`: returned a non-nil error (wrapping messages are not tracked);
* `cancelled e`: returned the non-nil `ctx.Err()` wrapped as "context
  cancelled";
* `spuriousNil`: the cancellation branch with `ctx.Err() = nil`, where
  `errors.WithMessage(nil, …)` returns nil and the caller's `result` is
  left unfilled;
* `panicNilHandler`: panicked calling the nil error handler;
* `panicNilResp`: dereferenced the nil `resp` after the loop fell through. -/
inductive ReqRes where
  | cachedOk (raw : String)
  | ok (raw : String)
  | err (e : GoErr)
  | cancelled (e : GoErr)
  | spuriousNil
  | panicNilHandler
  | panicNilResp
  deriving DecidableEq, Repr

/-- Observable outcome of one `RequestWithContext` call: the returned value,
how many times `Client.Do` was invoked, and the cache and ID counter
afterwards. -/
structure ReqResult where
  res : ReqRes
  upstreamCalls : ℕ
  cache : ClientCache
  idAfter : ℕ
  deriving DecidableEq, Repr

/-- The straight-line code of `RequestWithContext` after the retry loop
(`client.go:223-233`), mapping the loop's outcome to the call's result: on a
successful response unmarshal the raw result (`ju`) and, for cachable
methods, store it; every other loop outcome propagates unchanged, leaving
the cache untouched.  `idAfter` is the ID counter after `NewRPCRequest`. -/
def finishRequest (ju : String → Bool) (c : MClient) (now : ℕ)
    (method paramsJSON : String) (idAfter : ℕ) : LoopRes → ReqResult
  | .succ raw n =>
      if ju raw then
        if c.cache.isCachable method then
          { res := .ok raw, upstreamCalls := n,
            cache := c.cache.storeResponse now method paramsJSON raw,
            idAfter := idAfter }
        else
          { res := .ok raw, upstreamCalls := n, cache := c.cache, idAfter := idAfter }
      else
        { res := .err (.named "couldn't unmarshal response result field"),
          upstreamCalls := n, cache := c.cache, idAfter := idAfter }
  | .fail e n =>
      { res := .err e, upstreamCalls := n, cache := c.cache, idAfter := idAfter }
  | .cancelled (some e) n =>
      { res := .cancelled e, upstreamCalls := n, cache := c.cache, idAfter := idAfter }
  | .cancelled none n =>
      { res := .spuriousNil, upstreamCalls := n, cache := c.cache, idAfter := idAfter }
  | .panicNilHandler n =>
      { res := .panicNilHandler, upstreamCalls := n, cache := c.cache, idAfter := idAfter }
  | .exhausted n =>
      { res := .panicNilResp, upstreamCalls := n, cache := c.cache, idAfter := idAfter }

/-- `Client.RequestWithContext` (`client.go:149-234`).  `jm`/`ju` are the
`json.Marshal`-of-params and `json.Unmarshal`-into-result oracles, `doRes i`
the outcome of the i-th `c.Do`, `now` the clock the cache reads, `argCtx` the
`ctx` argument (`none` = nil, replaced by `c.GetContext()`).  Control flow in
source order: nil-ctx default, cache lookup for cachable methods,
`NewRPCRequest`, the retry loop (`runLoop`), then the post-loop code
(`finishRequest`). -/
def RequestWithContext (jm : String → Option String) (ju : String → Bool)
    (doRes : ℕ → Except GoErr String) (c : MClient) (now : ℕ)
    (argCtx : Option GoCtx) (method params : String) : ReqResult :=
  let ctx : Option GoCtx := match argCtx with | none => c.clientCtx | some a => some a
  match jm params with
  | none =>
      { res := .err (.named "json: unsupported type"), upstreamCalls := 0,
        cache := c.cache, idAfter := c.id }
  | some paramsJSON =>
      match (if c.cache.isCachable method
             then c.cache.getResponse now method paramsJSON else none) with
      | some raw =>
          if ju raw then
            { res := .cachedOk raw, upstreamCalls := 0, cache := c.cache, idAfter := c.id }
          else
            { res := .err (.named "couldn't unmarshal response result field"),
              upstreamCalls := 0, cache := c.cache, idAfter := c.id }
      | none =>
          let argErr : Option GoErr := match ctx with | some g => g.errNow | none => none
          let clientDone : Option (ℕ → Bool) :=
            match c.clientCtx with | some g => some g.firesDuring | none => none
          finishRequest ju c now method paramsJSON (c.id + 1)
            (runLoop c.errorHandler clientDone argErr doRes maxAttempts maxAttempts 0 [])

/-- An empty cache with an empty whitelist: no method is cachable. -/
def emptyCache : ClientCache := { whitelist := [], ttl := 0, entries := [] }

/-- A client whose error handler reports every error unrecoverable
(`return nil`), with nil stored context and nothing cached. -/
def retryClient : MClient :=
  { id := 0, errorHandler := some (fun _ => none), clientCtx := none,
    cache := emptyCache, flags := [] }

/-- A client whose error handler signals recoverable with a fresh error value
distinct from every upstream error (as a handler that wraps errors does),
with nil stored context and nothing cached. -/
def wrapHandlerClient : MClient :=
  { id := 0, errorHandler := some (fun _ => some (.named "handler error")),
    clientCtx := none, cache := emptyCache, flags := [] }

/-- Upstream oracle: every attempt fails with the same plain error (whose
message does not contain the work-queue-depth sentinel). -/
def alwaysSameFailure : ℕ → Except GoErr String :=
  fun _ => .error (.named "upstream failure")

/-- Upstream oracle: fail with `ErrQtumWorkQueueDepth` on the first `k`
attempts, then succeed. -/
def wqdKThenOk (k : ℕ) : ℕ → Except GoErr String :=
  fun i => if i < k then .error ErrQtumWorkQueueDepth else .ok "result"

/-- A context whose `Done()` channel is ready during every backoff sleep and
whose `Err()` is the standard cancellation error. -/
def firedCtx : GoCtx :=
  { firesDuring := fun _ => true, errNow := some (.named "context canceled") }

/-- C1: the code evaluated at the failing input.  The handler signals
recoverable with a fresh error value each time while the upstream fails with
the same error on every attempt.  Because the membership test reads
`handledErrors[errorHandlerErr]` while the recorded key is `err`
(`client.go:190-191`), the set never matches and a handler-driven retry is
granted on every non-final attempt: all 5 attempts run.  Under the claim (at
most one retry per distinct error, same key tested and recorded) the call
would stop after 2 attempts. -/
theorem handled_set_key_mismatch :
    (RequestWithContext (fun _ => some "[]") (fun _ => true) alwaysSameFailure
        wrapHandlerClient 0 none "getblockcount" "[]").upstreamCalls = 5 ∧
    (RequestWithContext (fun _ => some "[]") (fun _ => true) alwaysSameFailure
        wrapHandlerClient 0 none "getblockcount" "[]").res =
      .err (.named "upstream failure") := by
  constructor
  · rfl
  · rfl

/-- C2: the code evaluated at the failing input.  The `ctx` argument governing
the call is cancelled — its `Done()` channel is ready during every backoff
sleep — but the `select` in the retry loop waits on `c.ctx.Done()`
(`client.go:200-205`), and `c.ctx` is nil, so the wait is
`context.Background().Done()`, which never fires: every backoff sleeps to
completion, all 5 attempts run, and the work-queue-depth error is returned
instead of a cancelled-context error. -/
theorem backoff_wait_ignores_call_context :
    RequestWithContext (fun _ => some "[]") (fun _ => true)
        (fun _ => .error ErrQtumWorkQueueDepth) retryClient 0 (some firedCtx)
        "getblockcount" "[]" =
      { res := .err ErrQtumWorkQueueDepth, upstreamCalls := 5,
        cache := emptyCache, idAfter := 1 } := by
  rfl

/-- The upstream-call count `finishRequest` reports is exactly the attempt
count of the loop outcome it was given. -/
theorem finishRequest_calls (ju : String → Bool) (c : MClient) (now : ℕ)
    (method paramsJSON : String) (idAfter : ℕ) (lr : LoopRes) :
    (finishRequest ju c now method paramsJSON idAfter lr).upstreamCalls = lr.attempts := by
  cases lr with
  | succ raw n =>
      simp only [finishRequest]
      by_cases h1 : ju raw
      · simp only [h1, if_true]
        by_cases h2 : c.cache.isCachable method
        · simp [h2, LoopRes.attempts]
        · simp [h2, LoopRes.attempts]
      · simp [h1, LoopRes.attempts]
  | fail e n => rfl
  | cancelled e n => cases e <;> rfl
  | panicNilHandler n => rfl
  | exhausted n => rfl

/-- The attempt count a run of the retry loop reports is bounded by the
starting index plus the remaining fuel. -/
theorem runLoop_attempts_le (eh : Option (GoErr → Option GoErr))
    (cd : Option (ℕ → Bool)) (ae : Option GoErr) (dr : ℕ → Except GoErr String)
    (mx : ℕ) :
    ∀ fuel i handled, (runLoop eh cd ae dr mx fuel i handled).attempts ≤ i + fuel := by
  intro fuel
  induction fuel with
  | zero =>
      intro i handled
      simp [runLoop, LoopRes.attempts]
  | succ n ih =>
      intro i handled
      simp only [runLoop]
      cases dr i with
      | ok raw => simp only [LoopRes.attempts]; omega
      | error err =>
          cases eh with
          | none => simp only [LoopRes.attempts]; omega
          | some handler =>
              dsimp only
              split
              · cases cd with
                | some fires =>
                    by_cases hf : fires i
                    · simp only [hf, if_true, LoopRes.attempts]; omega
                    · simp only [hf, Bool.false_eq_true, if_false]
                      exact le_trans (ih (i + 1) _) (by omega)
                | none => exact le_trans (ih (i + 1) _) (by omega)
              · simp only [LoopRes.attempts]; omega

/-- C4: `max = max(maximumRequestTime/maximumBackoff, 1) = max(10000/2000, 1)
= 5`; no call to `RequestWithContext` performs more than 5 upstream attempts;
when the first `k < 5` attempts fail with the work-queue-depth error the
client backs off and retries, succeeding with `k + 1` upstream calls; and
when every attempt fails with it, the error surfaces after exactly 5
attempts. -/
theorem retry_attempt_bound :
    maxAttempts = 5 ∧
    (∀ jm ju doRes c now actx method params,
        (RequestWithContext jm ju doRes c now actx method params).upstreamCalls ≤ 5) ∧
    (∀ k, k < 5 →
        RequestWithContext (fun _ => some "[]") (fun _ => true) (wqdKThenOk k)
            retryClient 0 none "getblockcount" "[]" =
          { res := .ok "result", upstreamCalls := k + 1, cache := emptyCache,
            idAfter := 1 }) ∧
    RequestWithContext (fun _ => some "[]") (fun _ => true)
        (fun _ => .error ErrQtumWorkQueueDepth) retryClient 0 none
        "getblockcount" "[]" =
      { res := .err ErrQtumWorkQueueDepth, upstreamCalls := 5, cache := emptyCache,
        idAfter := 1 } := by
  refine ⟨rfl, ?_, by decide, rfl⟩
  intro jm ju doRes c now actx method params
  unfold RequestWithContext
  cases hjm : jm params with
  | none => simp
  | some paramsJSON =>
      dsimp only
      split
      · split <;> simp
      · rw [finishRequest_calls]
        exact le_trans (runLoop_attempts_le _ _ _ _ _ _ _ _) (by decide)

/-- Witness for C4's congestion-retry conjunct at `k = 2` (the spec's "retry
on congestion" scenario: two work-queue-depth failures, then success, three
upstream calls in total). -/
theorem retry_attempt_bound_witness :
    2 < 5 ∧
      RequestWithContext (fun _ => some "[]") (fun _ => true) (wqdKThenOk 2)
          retryClient 0 none "getblockcount" "[]" =
        { res := .ok "result", upstreamCalls := 2 + 1, cache := emptyCache,
          idAfter := 1 } :=
  ⟨by decide, retry_attempt_bound.2.2.1 2 (by decide)⟩

/-- One unfolding of the loop when the current attempt succeeds. -/
theorem runLoop_first_ok (eh : Option (GoErr → Option GoErr)) (cd : Option (ℕ → Bool))
    (ae : Option GoErr) (dr : ℕ → Except GoErr String) (mx fuel i : ℕ)
    (handled : List GoErr) (raw : String) (h : dr i = .ok raw) :
    runLoop eh cd ae dr mx (fuel + 1) i handled = .succ raw (i + 1) := by
  simp only [runLoop, h]

/-- One unfolding of the loop when the current attempt fails and the error
handler is the nil function value: the call panics. -/
theorem runLoop_nil_handler (cd : Option (ℕ → Bool)) (ae : Option GoErr)
    (dr : ℕ → Except GoErr String) (mx fuel i : ℕ) (handled : List GoErr)
    (e : GoErr) (h : dr i = .error e) :
    runLoop none cd ae dr mx (fuel + 1) i handled = .panicNilHandler (i + 1) := by
  simp only [runLoop, h]

/-- `finishRequest` either leaves the cache unchanged, or the loop delivered a
successful response whose raw result unmarshalled, the method is cachable,
and the new cache is exactly the old one with that raw result stored. -/
theorem finishRequest_cache (ju : String → Bool) (c : MClient) (now : ℕ)
    (method paramsJSON : String) (idAfter : ℕ) (lr : LoopRes) :
    (finishRequest ju c now method paramsJSON idAfter lr).cache = c.cache ∨
    (c.cache.isCachable method = true ∧ ∃ raw, ju raw = true ∧
      (finishRequest ju c now method paramsJSON idAfter lr).res = .ok raw ∧
      (finishRequest ju c now method paramsJSON idAfter lr).cache =
        c.cache.storeResponse now method paramsJSON raw) := by
  cases lr with
  | succ raw n =>
      simp only [finishRequest]
      by_cases h1 : ju raw
      · simp only [h1, if_true]
        by_cases h2 : c.cache.isCachable method
        · right
          exact ⟨h2, raw, h1, by simp [h2], by simp [h2]⟩
        · left
          simp [h2]
      · left
        simp [h1]
  | fail e n => left; rfl
  | cancelled e n => cases e <;> (left; rfl)
  | panicNilHandler n => left; rfl
  | exhausted n => left; rfl

/-- Evaluation of `RequestWithContext` on a cache hit: the cached bytes are
unmarshalled and returned (or the unmarshal error is), with no upstream call
and the cache and ID counter untouched. -/
theorem request_hit_eval (jm : String → Option String) (ju : String → Bool)
    (doRes : ℕ → Except GoErr String) (c : MClient) (now : ℕ)
    (argCtx : Option GoCtx) (method params paramsJSON raw : String)
    (h1 : jm params = some paramsJSON)
    (h2 : c.cache.isCachable method = true)
    (h3 : c.cache.getResponse now method paramsJSON = some raw) :
    RequestWithContext jm ju doRes c now argCtx method params =
      if ju raw then
        { res := .cachedOk raw, upstreamCalls := 0, cache := c.cache, idAfter := c.id }
      else
        { res := .err (.named "couldn't unmarshal response result field"),
          upstreamCalls := 0, cache := c.cache, idAfter := c.id } := by
  unfold RequestWithContext
  rw [h1]
  simp only [h2, if_true, h3]

/-- Evaluation of `RequestWithContext` on a cache miss whose first upstream
attempt succeeds with bytes that unmarshal, for a cachable method: one
upstream call, and the response is stored in the cache. -/
theorem request_miss_first_ok_eval (jm : String → Option String) (ju : String → Bool)
    (doRes : ℕ → Except GoErr String) (c : MClient) (now : ℕ)
    (argCtx : Option GoCtx) (method params paramsJSON raw : String)
    (h1 : jm params = some paramsJSON)
    (h2 : c.cache.isCachable method = true)
    (h3 : c.cache.getResponse now method paramsJSON = none)
    (h4 : doRes 0 = .ok raw)
    (h5 : ju raw = true) :
    RequestWithContext jm ju doRes c now argCtx method params =
      { res := .ok raw, upstreamCalls := 1,
        cache := c.cache.storeResponse now method paramsJSON raw,
        idAfter := c.id + 1 } := by
  unfold RequestWithContext
  rw [h1]
  simp only [h2, if_true, h3]
  rw [show maxAttempts = 4 + 1 from rfl]
  rw [runLoop_first_ok _ _ _ doRes (4 + 1) 4 0 [] raw h4]
  simp [finishRequest, h5, h2]

/-- After storing a response, a lookup of the same key at any time before the
entry's expiry returns the stored bytes. -/
theorem getResponse_after_store (cc : ClientCache) (t1 t2 : ℕ) (m pj raw : String)
    (h : t2 < t1 + cc.ttl) :
    (cc.storeResponse t1 m pj raw).getResponse t2 m pj = some raw := by
  simp [ClientCache.storeResponse, ClientCache.getResponse, List.find?, h]

/-- C5: a cache hit bypasses the network — when the method is cachable and
the cache holds an unexpired response for `(method, params)`, the call makes
zero upstream requests and (when the bytes unmarshal) returns the cached
result; consequently two successive identical requests for a whitelisted
method within the TTL window make exactly one upstream call in total. -/
theorem cache_hit_bypasses_network :
    (∀ (jm : String → Option String) (ju : String → Bool)
        (doRes : ℕ → Except GoErr String) (c : MClient) (now : ℕ)
        (argCtx : Option GoCtx) (method params paramsJSON raw : String),
      jm params = some paramsJSON →
      c.cache.isCachable method = true →
      c.cache.getResponse now method paramsJSON = some raw →
      (RequestWithContext jm ju doRes c now argCtx method params).upstreamCalls = 0 ∧
        (ju raw = true →
          (RequestWithContext jm ju doRes c now argCtx method params).res =
            .cachedOk raw)) ∧
    (∀ (jm : String → Option String) (ju : String → Bool)
        (d1 d2 : ℕ → Except GoErr String) (c : MClient) (t1 t2 : ℕ)
        (actx1 actx2 : Option GoCtx) (method params paramsJSON raw : String),
      jm params = some paramsJSON →
      c.cache.isCachable method = true →
      c.cache.getResponse t1 method paramsJSON = none →
      d1 0 = .ok raw →
      ju raw = true →
      t2 < t1 + c.cache.ttl →
      (RequestWithContext jm ju d1 c t1 actx1 method params).upstreamCalls +
        (RequestWithContext jm ju d2
            { c with cache := (RequestWithContext jm ju d1 c t1 actx1 method params).cache }
            t2 actx2 method params).upstreamCalls = 1) := by
  constructor
  · intro jm ju doRes c now argCtx method params paramsJSON raw h1 h2 h3
    rw [request_hit_eval jm ju doRes c now argCtx method params paramsJSON raw h1 h2 h3]
    constructor
    · by_cases hju : ju raw <;> simp [hju]
    · intro hju
      simp [hju]
  · intro jm ju d1 d2 c t1 t2 actx1 actx2 method params paramsJSON raw
      h1 h2 h3 h4 h5 h6
    have e1 := request_miss_first_ok_eval jm ju d1 c t1 actx1 method params
      paramsJSON raw h1 h2 h3 h4 h5
    rw [e1]
    have e2 := request_hit_eval jm ju d2
      { c with cache := c.cache.storeResponse t1 method paramsJSON raw }
      t2 actx2 method params paramsJSON raw h1 h2
      (getResponse_after_store c.cache t1 t2 method paramsJSON raw h6)
    rw [e2]
    simp [h5]

/-- A client whose cache whitelists `getblockhash` and holds an entry for
params `[1]` expiring at time 5. -/
def cachedClient : MClient :=
  { id := 0, errorHandler := some (fun _ => none), clientCtx := none,
    cache := { whitelist := ["getblockhash"], ttl := 10,
               entries := [(("getblockhash", "[1]"), ("cachedraw", 5))] },
    flags := [] }

/-- A client whose cache whitelists `getblockhash` but holds no entries. -/
def missClient : MClient :=
  { id := 0, errorHandler := some (fun _ => none), clientCtx := none,
    cache := { whitelist := ["getblockhash"], ttl := 10, entries := [] },
    flags := [] }

/-- Witness for C5: a client whose cache whitelists `getblockhash` and holds
an unexpired entry answers from the cache with zero upstream calls; starting
instead from an empty cache, the first call stores the response and the
second is served from the cache, one upstream call in total. -/
theorem cache_hit_bypasses_network_witness :
    ((fun (_ : String) => some "[1]") "p" = some "[1]" ∧
      (cachedClient).cache.isCachable "getblockhash" = true ∧
      (cachedClient).cache.getResponse 1 "getblockhash" "[1]" = some "cachedraw" ∧
      (RequestWithContext (fun _ => some "[1]") (fun _ => true)
          (fun _ => .error ErrQtumWorkQueueDepth) cachedClient 1 none
          "getblockhash" "p").upstreamCalls = 0) ∧
    ((missClient).cache.getResponse 0 "getblockhash" "[1]" = none ∧
      (2 : ℕ) < 0 + (missClient).cache.ttl ∧
      (RequestWithContext (fun _ => some "[1]") (fun _ => true)
            (fun _ => .ok "result") missClient 0 none "getblockhash" "p").upstreamCalls +
          (RequestWithContext (fun _ => some "[1]") (fun _ => true)
              (fun _ => .error ErrQtumWorkQueueDepth)
              { missClient with
                  cache := (RequestWithContext (fun _ => some "[1]") (fun _ => true)
                      (fun _ => .ok "result") missClient 0 none "getblockhash"
                      "p").cache }
              2 none "getblockhash" "p").upstreamCalls = 1) :=
  ⟨⟨rfl, by decide, by decide,
      (cache_hit_bypasses_network.1 (fun _ => some "[1]") (fun _ => true)
          (fun _ => .error ErrQtumWorkQueueDepth) cachedClient 1 none
          "getblockhash" "p" "[1]" "cachedraw" rfl (by decide) (by decide)).1⟩,
    ⟨by decide, by decide,
      cache_hit_bypasses_network.2 (fun _ => some "[1]") (fun _ => true)
        (fun _ => .ok "result") (fun _ => .error ErrQtumWorkQueueDepth) missClient
        0 2 none none "getblockhash" "p" "[1]" "result" rfl (by decide) (by decide)
        rfl rfl (by decide)⟩⟩

/-- C6: `RequestWithContext` writes to the cache only when the method is
cachable and the upstream call returned a successful response whose result
unmarshalled; on every other path the cache is unchanged. -/
theorem cache_store_only_on_success (jm : String → Option String) (ju : String → Bool)
    (doRes : ℕ → Except GoErr String) (c : MClient) (now : ℕ)
    (argCtx : Option GoCtx) (method params : String) :
    (RequestWithContext jm ju doRes c now argCtx method params).cache = c.cache ∨
    (c.cache.isCachable method = true ∧
      ∃ paramsJSON raw, jm params = some paramsJSON ∧ ju raw = true ∧
        (RequestWithContext jm ju doRes c now argCtx method params).res = .ok raw ∧
        (RequestWithContext jm ju doRes c now argCtx method params).cache =
          c.cache.storeResponse now method paramsJSON raw) := by
  unfold RequestWithContext
  cases hjm : jm params with
  | none => left; rfl
  | some paramsJSON =>
      dsimp only
      split
      · rename_i raw heq
        by_cases hju : ju raw <;> simp [hju]
      · refine Or.imp id ?_ (finishRequest_cache ju c now method paramsJSON (c.id + 1) _)
        rintro ⟨h2, raw, hju, hres, hc⟩
        exact ⟨h2, paramsJSON, raw, rfl, hju, hres, hc⟩

/-- C9: with no error handler registered (`c.errorHandler` is the nil
function value), any failing upstream attempt makes `RequestWithContext`
call the nil function and panic instead of returning the error. -/
theorem nil_error_handler_panics (jm : String → Option String) (ju : String → Bool)
    (doRes : ℕ → Except GoErr String) (c : MClient) (now : ℕ)
    (argCtx : Option GoCtx) (method params paramsJSON : String) (e : GoErr)
    (h0 : c.errorHandler = none)
    (h1 : jm params = some paramsJSON)
    (h2 : c.cache.isCachable method = true →
      c.cache.getResponse now method paramsJSON = none)
    (h3 : doRes 0 = .error e) :
    (RequestWithContext jm ju doRes c now argCtx method params).res =
      .panicNilHandler := by
  unfold RequestWithContext
  rw [h1]
  dsimp only
  have hnone : (if c.cache.isCachable method
      then c.cache.getResponse now method paramsJSON else none) = none := by
    by_cases hca : c.cache.isCachable method
    · simp [hca, h2 hca]
    · simp [hca]
  rw [hnone]
  rw [h0]
  rw [show maxAttempts = 4 + 1 from rfl]
  rw [runLoop_nil_handler _ _ doRes (4 + 1) 4 0 [] e h3]
  rfl

/-- A client with no error handler registered, nil stored context and an
empty cache. -/
def noHandlerClient : MClient :=
  { id := 0, errorHandler := none, clientCtx := none, cache := emptyCache, flags := [] }

/-- Witness for C9: the handlerless client panics on a failing first
attempt. -/
theorem nil_error_handler_panics_witness :
    noHandlerClient.errorHandler = none ∧
      (RequestWithContext (fun _ => some "[]") (fun _ => true)
          (fun _ => .error (.named "boom")) noHandlerClient 0 none
          "getblockcount" "[]").res = .panicNilHandler :=
  ⟨rfl, nil_error_handler_panics (fun _ => some "[]") (fun _ => true)
    (fun _ => .error (.named "boom")) noHandlerClient 0 none "getblockcount" "[]"
    "[]" (.named "boom") rfl rfl (fun h => by simp [noHandlerClient, emptyCache,
      ClientCache.isCachable] at h) rfl⟩

/-- A sequence of `NewRPCRequest` calls on one client, collecting the numeric
value of the ID attached to each successfully built request (the request
carries its decimal string). -/
def runCalls (jm : String → Option String) (method : String) :
    MClient → List String → MClient × List ℕ
  | c, [] => (c, [])
  | c, p :: ps =>
      let step := NewRPCRequest jm c method p
      let rest := runCalls jm method step.1 ps
      match step.2 with
      | .ok _ => (rest.1, step.1.id :: rest.2)
      | .error _ => (rest.1, rest.2)

/-- Over any sequence of calls the ID counter never decreases, every attached
ID exceeds the starting counter and is bounded by the final one, and the
attached IDs are strictly increasing. -/
theorem runCalls_ids (jm : String → Option String) (method : String) :
    ∀ (ps : List String) (c : MClient),
      c.id ≤ (runCalls jm method c ps).1.id ∧
      (∀ x ∈ (runCalls jm method c ps).2,
        c.id < x ∧ x ≤ (runCalls jm method c ps).1.id) ∧
      List.Chain' (· < ·) (runCalls jm method c ps).2 := by
  intro ps
  induction ps with
  | nil => intro c; simp [runCalls]
  | cons p ps ih =>
      intro c
      cases hj : jm p with
      | none =>
          obtain ⟨ih1, ih2, ih3⟩ := ih c
          simp only [runCalls, NewRPCRequest, hj]
          exact ⟨ih1, fun x hx => ih2 x hx, ih3⟩
      | some pj =>
          obtain ⟨ih1, ih2, ih3⟩ := ih { c with id := c.id + 1 }
          simp only [show ({ c with id := c.id + 1 } : MClient).id = c.id + 1 from rfl]
            at ih1 ih2
          simp only [runCalls, NewRPCRequest, hj]
          refine ⟨by omega, ?_, ?_⟩
          · intro x hx
            rcases List.mem_cons.mp hx with h | h
            · subst h
              exact ⟨by omega, ih1⟩
            · exact ⟨by have := (ih2 x h).1; omega, (ih2 x h).2⟩
          · rw [List.chain'_cons']
            refine ⟨?_, ih3⟩
            intro y hy
            have hy' : y ∈ (runCalls jm method { c with id := c.id + 1 } ps).2 :=
              List.mem_of_mem_head? hy
            exact (ih2 y hy').1

/-- C7 counterexample: a call to `NewRPCRequest` whose params fail to marshal
returns early (`client.go:312-315`) without touching the ID counter, so it
does not increment it by one. -/
theorem newRPCRequest_marshal_failure_skips_increment :
    (NewRPCRequest (fun _ => none) noHandlerClient "getblockcount" "[]").1.id ≠
      noHandlerClient.id + 1 := by
  decide

/-- C7 (amended): every call to `NewRPCRequest` whose params marshal
successfully increments the ID counter by exactly one and attaches the new
counter value as the request ID; a call whose params fail to marshal leaves
the counter unchanged; and across any sequence of calls the attached IDs are
strictly increasing (hence never reused). -/
theorem newRPCRequest_id_monotone :
    (∀ (jm : String → Option String) (c : MClient) (method params paramsJSON : String),
      jm params = some paramsJSON →
      (NewRPCRequest jm c method params).1.id = c.id + 1 ∧
        (NewRPCRequest jm c method params).2 =
          .ok { id := toString (c.id + 1), method := method,
                paramsJSON := paramsJSON }) ∧
    (∀ (jm : String → Option String) (c : MClient) (method params : String),
      jm params = none → (NewRPCRequest jm c method params).1.id = c.id) ∧
    (∀ (jm : String → Option String) (method : String) (ps : List String) (c : MClient),
      List.Chain' (· < ·) (runCalls jm method c ps).2 ∧
        ∀ x ∈ (runCalls jm method c ps).2, c.id < x) := by
  refine ⟨?_, ?_, ?_⟩
  · intro jm c method params paramsJSON h
    simp [NewRPCRequest, h]
  · intro jm c method params h
    simp [NewRPCRequest, h]
  · intro jm method ps c
    obtain ⟨_, h2, h3⟩ := runCalls_ids jm method ps c
    exact ⟨h3, fun x hx => (h2 x hx).1⟩

/-- Witness for C7's amended claim: on a client with counter 0, a successful
call increments the counter to 1 and attaches ID "1". -/
theorem newRPCRequest_id_monotone_witness :
    (fun (_ : String) => some "[]") "[]" = some "[]" ∧
      (NewRPCRequest (fun _ => some "[]") noHandlerClient "getblockcount" "[]").1.id =
        noHandlerClient.id + 1 ∧
      (NewRPCRequest (fun _ => some "[]") noHandlerClient "getblockcount" "[]").2 =
        .ok { id := toString (noHandlerClient.id + 1), method := "getblockcount",
              paramsJSON := "[]" } :=
  ⟨rfl, newRPCRequest_id_monotone.1 (fun _ => some "[]") noHandlerClient
    "getblockcount" "[]" "[]" rfl⟩

/-- A registered handler (`ETHProxy` implementation), identified by the
method name it serves (`p.Method()`) and a tag distinguishing values. -/
structure ETHProxy where
  method : String
  tag : ℕ
  deriving DecidableEq, Repr

/-- `Transformer` (`transformer.go:12-17`): the `transformers` map, `nil`
until the first registration (a Go nil map and an empty map are
indistinguishable to lookups).  The association list is read through its
first matching key; `Register` never inserts a duplicate key, so it models
the Go map exactly. -/
structure Transformer where
  transformers : Option (List (String × ETHProxy))
  deriving DecidableEq, Repr

/-- The lookup `t.transformers[m]` (as in `getProxy`, `transformer.go:75-81`,
which wraps a miss in a method-not-found error). -/
def Transformer.getProxy (t : Transformer) (m : String) : Option ETHProxy :=
  match t.transformers with
  | none => none
  | some l => (l.find? (fun e => e.1 = m)).map (fun e => e.2)

/-- `Transformer.Register` (`transformer.go:47-60`): allocate the map if nil;
if a handler already exists under `p.Method()` return an error, otherwise
store `p` under its method name and return nil. -/
def Transformer.Register (t : Transformer) (p : ETHProxy) :
    Option GoErr × Transformer :=
  let m0 : List (String × ETHProxy) :=
    match t.transformers with | none => [] | some l => l
  if (m0.find? (fun e => e.1 = p.method)).isSome then
    (some (.named ("method already exist: " ++ p.method ++ " ")),
      { transformers := some m0 })
  else
    (none, { transformers := some ((p.method, p) :: m0) })

/-- C8: `Register p` fails when a handler is already registered under
`p.Method()`, leaving every registration unchanged; otherwise it succeeds,
stores `p` under its method name, and leaves all other methods unchanged. -/
theorem register_rejects_duplicate (t : Transformer) (p : ETHProxy) :
    ((∃ q, t.getProxy p.method = some q) →
      (t.Register p).1.isSome = true ∧
        ∀ m, (t.Register p).2.getProxy m = t.getProxy m) ∧
    (t.getProxy p.method = none →
      (t.Register p).1 = none ∧
        (t.Register p).2.getProxy p.method = some p ∧
        ∀ m, m ≠ p.method → (t.Register p).2.getProxy m = t.getProxy m) := by
  cases ht : t.transformers with
  | none =>
      constructor
      · rintro ⟨q, hq⟩
        simp [Transformer.getProxy, ht] at hq
      · intro _
        refine ⟨?_, ?_, ?_⟩
        · simp [Transformer.Register, ht]
        · simp [Transformer.Register, Transformer.getProxy, ht]
        · intro m hm
          have hpm : ¬ (p.method = m) := fun h => hm h.symm
          simp [Transformer.Register, Transformer.getProxy, ht, List.find?, hpm]
  | some l =>
      cases hf : l.find? (fun e => e.1 = p.method) with
      | some entry =>
          constructor
          · intro _
            constructor
            · simp [Transformer.Register, ht, hf]
            · intro m
              simp [Transformer.Register, Transformer.getProxy, ht, hf]
          · intro hnone
            simp [Transformer.getProxy, ht, hf] at hnone
      | none =>
          constructor
          · rintro ⟨q, hq⟩
            simp [Transformer.getProxy, ht, hf] at hq
          · intro _
            refine ⟨?_, ?_, ?_⟩
            · simp [Transformer.Register, ht, hf]
            · simp [Transformer.Register, Transformer.getProxy, ht, hf, List.find?]
            · intro m hm
              have hpm : ¬ (p.method = m) := fun h => hm h.symm
              simp [Transformer.Register, Transformer.getProxy, ht, hf, List.find?,
                hpm]

/-- Witness for C8: registering a handler for `eth_call` in an empty registry
succeeds; an already-present method is covered by applying the duplicate
branch to the resulting registry. -/
theorem register_rejects_duplicate_witness :
    (Transformer.getProxy { transformers := none } (ETHProxy.mk "eth_call" 0).method =
        none ∧
      (Transformer.Register { transformers := none } (ETHProxy.mk "eth_call" 0)).1 =
        none ∧
      (Transformer.Register { transformers := none }
          (ETHProxy.mk "eth_call" 0)).2.getProxy "eth_call" =
        some (ETHProxy.mk "eth_call" 0)) ∧
    ((Transformer.Register { transformers := some [("eth_call", ETHProxy.mk "eth_call" 0)] }
          (ETHProxy.mk "eth_call" 1)).1.isSome = true ∧
      (Transformer.Register { transformers := some [("eth_call", ETHProxy.mk "eth_call" 0)] }
          (ETHProxy.mk "eth_call" 1)).2.getProxy "eth_call" =
        some (ETHProxy.mk "eth_call" 0)) :=
  ⟨⟨by decide,
    ((register_rejects_duplicate { transformers := none }
        (ETHProxy.mk "eth_call" 0)).2 (by decide)).1,
    ((register_rejects_duplicate { transformers := none }
        (ETHProxy.mk "eth_call" 0)).2 (by decide)).2.1⟩,
   ⟨((register_rejects_duplicate
        { transformers := some [("eth_call", ETHProxy.mk "eth_call" 0)] }
        (ETHProxy.mk "eth_call" 1)).1 ⟨ETHProxy.mk "eth_call" 0, by decide⟩).1,
    by decide⟩⟩

/-- `FLAG_DISABLE_SNIPPING_LOGS` (`client.go:29`). -/
def FLAG_DISABLE_SNIPPING_LOGS : String := "DISABLE_SNIPPING_LOGS"

/-- `Client.SetFlag` (`client.go:361-369`), mutex-guarded map write. -/
def SetFlag (c : MClient) (key : String) (value : GoVal) : MClient :=
  { c with flags := (key, value) :: c.flags }

/-- `Client.GetFlag` (`client.go:371-379`). -/
def GetFlag (c : MClient) (key : String) : Option GoVal :=
  (c.flags.find? (fun e => e.1 = key)).map (fun e => e.2)

/-- `Client.GetFlagBool` (`client.go:390-400`): nil or a non-bool value reads
as `false`. -/
def GetFlagBool (c : MClient) (key : String) : Bool :=
  match GetFlag c key with
  | some (.b x) => x
  | _ => false

/-- `SetDisableSnippingQtumRpcOutput` (`client.go:469-474`): stores the
NEGATION of its argument under `FLAG_DISABLE_SNIPPING_LOGS`. -/
def SetDisableSnippingQtumRpcOutput (disable : Bool) (c : MClient) : MClient :=
  SetFlag c FLAG_DISABLE_SNIPPING_LOGS (.b (!disable))

/-- `maxBodySize := 1024 * 8` (`client.go:261`). -/
def maxBodySize : ℕ := 1024 * 8

/-- The response-body transformation applied before logging in `Client.Do`
(`client.go:260-265`): unless `FLAG_DISABLE_SNIPPING_LOGS` reads true,
bodies longer than `maxBodySize` are truncated to their first and last
`maxBodySize/2` characters around a snip marker. -/
def snipResponseBody (c : MClient) (body : String) : String :=
  if !(GetFlagBool c FLAG_DISABLE_SNIPPING_LOGS) then
    if body.length > maxBodySize then
      body.take (maxBodySize / 2) ++ "\n...snip...\n" ++
        body.drop (body.length - maxBodySize / 2)
    else body
  else body

/-- C10: `SetDisableSnippingQtumRpcOutput(disable)` sets
`FLAG_DISABLE_SNIPPING_LOGS` to `!disable`; with `disable = true` the flag is
false and the snipping branch of `Do` stays active on long bodies, and with
`disable = false` the flag is true and snipping is skipped. -/
theorem disable_snipping_inverts_flag (disable : Bool) (c : MClient) (body : String) :
    GetFlagBool (SetDisableSnippingQtumRpcOutput disable c)
        FLAG_DISABLE_SNIPPING_LOGS = !disable ∧
    snipResponseBody (SetDisableSnippingQtumRpcOutput true c) body =
      (if body.length > maxBodySize then
        body.take (maxBodySize / 2) ++ "\n...snip...\n" ++
          body.drop (body.length - maxBodySize / 2)
      else body) ∧
    snipResponseBody (SetDisableSnippingQtumRpcOutput false c) body = body := by
  refine ⟨?_, ?_, ?_⟩
  · simp [GetFlagBool, GetFlag, SetDisableSnippingQtumRpcOutput, SetFlag, List.find?]
  · simp [snipResponseBody, GetFlagBool, GetFlag, SetDisableSnippingQtumRpcOutput,
      SetFlag, List.find?]
  · simp [snipResponseBody, GetFlagBool, GetFlag, SetDisableSnippingQtumRpcOutput,
      SetFlag, List.find?]

end Janus
